import Mathlib

/-!
Verification development for the call-session audio bridge and outcome
pipeline of the repository (Twilio <-> Grok realtime voice bridge plus
post-call negotiated-price extraction).

The shallow embedding below translates, from the source:
  - the price extractors of services/grok_llm.py
    (extract_negotiated_price and _fallback_extract_price), including a
    character-level model of the concrete regular expressions they use;
  - the CPython audioop library functions the bridge calls
    (ulaw2lin, lin2ulaw, ratecv) at width 2, one channel;
  - the two relay loops of app.py (receive_from_twilio, send_to_twilio)
    as folds over streams of decoded JSON events, and the final
    enumerate-based transcript numbering of handle_media_stream.

Strings are modelled as Lean String/List Char; prices as rationals
(Python floats on these inputs are exact decimals); base64 framing is
omitted on both transports since it is an injective re-encoding,
except that an undecodable inbound payload is modelled explicitly.
-/

namespace XaiHack

/-! ### Python string helpers

Character-level models of str.lower, str.strip and the substring test
used by the extractors. Python whitespace (for str.strip and the regex
class \s) is modelled at its ASCII core, which covers every input the
theorems below evaluate. -/

/-- Model of the Python whitespace class on ASCII characters. -/
def isPySpace (c : Char) : Bool :=
  c = ' ' || c = '\t' || c = '\n' || c = '\r' || c = '\x0b' || c = '\x0c'

/-- Model of str.lower on a character list. -/
def lowerChars (s : List Char) : List Char := s.map Char.toLower

/-- Model of str.strip: drop whitespace from both ends. -/
def stripChars (s : List Char) : List Char :=
  ((s.dropWhile isPySpace).reverse.dropWhile isPySpace).reverse

/-- Whether the first list is a prefix of the second (decidable, Bool). -/
def isPrefixList : List Char → List Char → Bool
  | [], _ => true
  | _ :: _, [] => false
  | a :: as, b :: bs => a = b && isPrefixList as bs

/-- Model of the Python substring test sub in s. -/
def containsSub (sub : List Char) : List Char → Bool
  | [] => isPrefixList sub []
  | c :: rest => isPrefixList sub (c :: rest) || containsSub sub rest

/-! ### Regular-expression machinery

The extractors use re.findall with five concrete patterns. Each pattern
is modelled as a matcher that, at a given position, either fails or
returns the captured group together with the input remaining after the
whole match. findall scans left to right and resumes after each match,
exactly as re.findall does for these patterns (all of them consume at
least one character, so fuel equal to the input length is exact). -/

/-- Greedily take leading decimal digits. -/
def takeDigits : List Char → List Char × List Char
  | [] => ([], [])
  | c :: cs =>
    if c.isDigit then
      let (d, r) := takeDigits cs
      (c :: d, r)
    else ([], c :: cs)

/-- Matches the regex piece (\d+\.?\d*) greedily at the head of the input.
Returns the greedy parse (capture, rest) and, when the greedy parse
consumed a dot, the shorter dot-free alternative: the one backtracking
point the regex engine can use when a continuation fails. -/
def matchNumAlts (cs : List Char) :
    Option ((List Char × List Char) × Option (List Char × List Char)) :=
  let (d1, r1) := takeDigits cs
  if d1.isEmpty then none
  else
    match r1 with
    | '.' :: r2 =>
      let (d2, r3) := takeDigits r2
      some ((d1 ++ '.' :: d2, r3), some (d1, r1))
    | _ => some ((d1, r1), none)

/-- Matches the bare number token \d+\.?\d* (no continuation, greedy). -/
def matchNumber (cs : List Char) : Option (List Char × List Char) :=
  (matchNumAlts cs).map Prod.fst

/-- Consume a literal word, comparing case-insensitively (the word is given
in lowercase); returns the rest on success. -/
def matchLit : List Char → List Char → Option (List Char)
  | [], cs => some cs
  | _ :: _, [] => none
  | a :: as, b :: bs => if a = b.toLower then matchLit as bs else none

/-- Model of \s* : drop any leading whitespace. -/
def dropSpaces (cs : List Char) : List Char := cs.dropWhile isPySpace

/-- Model of \s+ : require at least one whitespace character, then greedily
drop the rest (the continuations in all patterns below start with a
letter or digit, so greediness is safe). -/
def matchSpaces1 : List Char → Option (List Char)
  | [] => none
  | c :: rest => if isPySpace c then some (rest.dropWhile isPySpace) else none

/-- Consume an optional trailing s (the s? in dollars?). -/
def consumeOptS : List Char → List Char
  | [] => []
  | c :: cs => if c.toLower = 's' then cs else c :: cs

/-- Pattern 1 of _fallback_extract_price: \$(\d+\.?\d*). -/
def matchDollar : List Char → Option (List Char × List Char)
  | '$' :: cs => (matchNumAlts cs).map Prod.fst
  | _ => none

/-- Pattern 2 of _fallback_extract_price: (\d+\.?\d*)\s*dollars? with the
regex backtracking on the optional dot when the word fails to follow. -/
def matchDollarsWord (cs : List Char) : Option (List Char × List Char) :=
  match matchNumAlts cs with
  | none => none
  | some ((cap, rest), alt) =>
    match matchLit "dollar".toList (dropSpaces rest) with
    | some r2 => some (cap, consumeOptS r2)
    | none =>
      match alt with
      | some (cap2, rest2) =>
        (matchLit "dollar".toList (dropSpaces rest2)).map (fun r2 => (cap2, consumeOptS r2))
      | none => none

/-- Pattern 3 of _fallback_extract_price: agreed\s+on\s+(\d+\.?\d*). -/
def matchAgreedOn (cs : List Char) : Option (List Char × List Char) := do
  let r1 ← matchLit "agreed".toList cs
  let r2 ← matchSpaces1 r1
  let r3 ← matchLit "on".toList r2
  let r4 ← matchSpaces1 r3
  let (p, _) ← matchNumAlts r4
  some p

/-- Continuation \s+for\s+the of pattern 4. -/
def matchForTheTail (cs : List Char) : Option (List Char) := do
  let r1 ← matchSpaces1 cs
  let r2 ← matchLit "for".toList r1
  let r3 ← matchSpaces1 r2
  matchLit "the".toList r3

/-- Pattern 4 of _fallback_extract_price: (\d+\.?\d*)\s+for\s+the. -/
def matchForThe (cs : List Char) : Option (List Char × List Char) :=
  match matchNumAlts cs with
  | none => none
  | some ((cap, rest), alt) =>
    match matchForTheTail rest with
    | some r => some (cap, r)
    | none =>
      match alt with
      | some (cap2, rest2) => (matchForTheTail rest2).map (fun r => (cap2, r))
      | none => none

/-- Pattern 5 of _fallback_extract_price: price\s+is\s+(\d+\.?\d*). -/
def matchPriceIs (cs : List Char) : Option (List Char × List Char) := do
  let r1 ← matchLit "price".toList cs
  let r2 ← matchSpaces1 r1
  let r3 ← matchLit "is".toList r2
  let r4 ← matchSpaces1 r3
  let (p, _) ← matchNumAlts r4
  some p

/-- Model of re.findall for one pattern: scan left to right, emit the
captured group at each match and resume after it, otherwise advance one
character. Fuel bounds the scan; input length is always enough because
every matcher above consumes at least one character. -/
def findAllAux (m : List Char → Option (List Char × List Char)) :
    Nat → List Char → List (List Char)
  | 0, _ => []
  | _ + 1, [] => []
  | fuel + 1, c :: cs =>
    match m (c :: cs) with
    | some (cap, rest) => cap :: findAllAux m fuel rest
    | none => findAllAux m fuel cs

/-- re.findall over the whole input. -/
def findAll (m : List Char → Option (List Char × List Char)) (s : List Char) :
    List (List Char) :=
  findAllAux m s.length s

/-- Digits to a natural number. -/
def digitsToNat (ds : List Char) : Nat :=
  ds.foldl (fun n c => n * 10 + (c.toNat - '0'.toNat)) 0

/-- Model of Python float() on a capture of the shape \d+\.?\d* (always a
valid float literal, so the ValueError branches in the source are dead).
Values are exact decimals, modelled as rationals. -/
def parseFloatQ (cs : List Char) : ℚ :=
  let (ip, r) := takeDigits cs
  match r with
  | '.' :: r2 =>
    let (fp, _) := takeDigits r2
    (digitsToNat ip : ℚ) + mkRat (digitsToNat fp) (10 ^ fp.length)
  | _ => (digitsToNat ip : ℚ)

/-! ### Transcript entries and the price extractors (services/grok_llm.py) -/

/-- One transcript entry: a dict with role and text keys in the source. -/
structure Entry where
  role : String
  text : String
deriving DecidableEq, Repr

/-- The " ".join of the entry texts, as in _fallback_extract_price. -/
def joinTexts (ts : List Entry) : List Char :=
  (String.intercalate " " (ts.map (fun e => e.text))).toList

/-- Model of _fallback_extract_price: try the five patterns in their listed
order against the whole transcript text; on the first pattern with any
match, return float of its last match; IGNORECASE is modelled by
lowercasing the text (captures are digits and dots, unaffected). -/
def fallback_extract_price (ts : List Entry) : Option ℚ :=
  let full_text := lowerChars (joinTexts ts)
  match (findAll matchDollar full_text).getLast? with
  | some cap => some (parseFloatQ cap)
  | none =>
    match (findAll matchDollarsWord full_text).getLast? with
    | some cap => some (parseFloatQ cap)
    | none =>
      match (findAll matchAgreedOn full_text).getLast? with
      | some cap => some (parseFloatQ cap)
      | none =>
        match (findAll matchForThe full_text).getLast? with
        | some cap => some (parseFloatQ cap)
        | none =>
          match (findAll matchPriceIs full_text).getLast? with
          | some cap => some (parseFloatQ cap)
          | none => none

/-- The five patterns in the order the source lists them. -/
def pricePatterns : List (List Char → Option (List Char × List Char)) :=
  [matchDollar, matchDollarsWord, matchAgreedOn, matchForThe, matchPriceIs]

/-- First pattern with a match wins; its last match is taken. This is the
amended reading of the fallback strategy, written as a recursion over the
pattern list so it can be compared with the source-shaped definition. -/
def firstPatternLast : List (List Char → Option (List Char × List Char)) →
    List Char → Option (List Char)
  | [], _ => none
  | p :: ps, text =>
    match (findAll p text).getLast? with
    | some cap => some cap
    | none => firstPatternLast ps text

/-- Modelled from the spec: the last match across ALL patterns, in text
order; at each position the patterns are tried in their listed order. The
spec's fallback strategy says to take the last match across all patterns
as the agreed price. -/
def spec_last_match_across_patterns (ts : List Entry) : Option ℚ :=
  let full_text := lowerChars (joinTexts ts)
  let anyPattern := fun cs =>
    match matchDollar cs with
    | some r => some r
    | none =>
      match matchDollarsWord cs with
      | some r => some r
      | none =>
        match matchAgreedOn cs with
        | some r => some r
        | none =>
          match matchForThe cs with
          | some r => some r
          | none => matchPriceIs cs
  ((findAll anyPattern full_text).getLast?).map parseFloatQ

/-- Normalisation applied to the primary answer: strip then lower. -/
def normAnswer (answer : String) : List Char :=
  lowerChars (stripChars answer.toList)

/-- Model of the answer-parsing tail of extract_negotiated_price: the code
strips and lowercases the LLM answer, returns None when it is empty,
equals "none", or contains "no" or "not", and otherwise parses the first
\d+\.?\d* token with float(). -/
def parse_price_response (answer : String) : Option ℚ :=
  let price_str := normAnswer answer
  if price_str.isEmpty || price_str = "none".toList ||
      containsSub "no".toList price_str || containsSub "not".toList price_str then
    none
  else
    match findAll matchNumber price_str with
    | [] => none
    | cap :: _ => some (parseFloatQ cap)

/-- A none-like answer per the spec's wording: empty, or carrying a
negation token. -/
def noneLikeAnswer (s : List Char) : Bool :=
  s.isEmpty || containsSub "no".toList s || containsSub "not".toList s

/-- The first numeric token of the normalised answer, parsed. -/
def firstNumericTokenQ (s : List Char) : Option ℚ :=
  ((findAll matchNumber s).head?).map parseFloatQ

/-- The primary strategy is an external inference call: it either returns a
textual answer or raises. -/
inductive LLMOutcome where
  | ok (answer : String)
  | err
deriving Repr

/-- Model of extract_negotiated_price: empty transcript returns None at
once; with no API key the fallback runs; otherwise the primary answer is
parsed, and an inference exception falls back to the regex extractor. -/
def extract_negotiated_price (hasApiKey : Bool) (llm : LLMOutcome)
    (ts : List Entry) : Option ℚ :=
  if ts.isEmpty then none
  else if !hasApiKey then fallback_extract_price ts
  else
    match llm with
    | .ok answer => parse_price_response answer
    | .err => fallback_extract_price ts

/-! ### CPython audioop model (width 2, one channel)

The bridge transcodes with audioop.ulaw2lin, audioop.lin2ulaw and
audioop.ratecv. These are modelled after Modules/audioop.c. Samples are
16-bit signed integers carried as Int; mu-law bytes are Nat below 256.
ratecv's interpolation division is modelled as truncation toward zero;
every concrete input evaluated below makes that division exact, where
all of C's candidate semantics coincide. -/

/-- Model of st_ulaw2linear16: complement the byte, expand quantisation
bits with bias 0x84, shift by the segment, restore the sign. -/
def st_ulaw2linear16 (u : Nat) : Int :=
  let uv := 255 - (u % 256)
  let t : Int := (((uv % 16) * 8 + 0x84) : Nat)
  let t := t * (2 ^ ((uv / 16) % 8))
  if 128 ≤ uv then 0x84 - t else t - 0x84

/-- Model of audioop.ulaw2lin at width 2: one output sample per byte. -/
def ulaw2lin (bs : List Nat) : List Int := bs.map st_ulaw2linear16

/-- The seg_uend table of audioop.c and its linear search: first index
whose entry is at least the value, else 8. -/
def segSearch (v : Int) : Nat :=
  if v ≤ 0x3F then 0
  else if v ≤ 0x7F then 1
  else if v ≤ 0xFF then 2
  else if v ≤ 0x1FF then 3
  else if v ≤ 0x3FF then 4
  else if v ≤ 0x7FF then 5
  else if v ≤ 0xFFF then 6
  else if v ≤ 0x1FFF then 7
  else 8

/-- Model of st_14linear2ulaw (bias 0x84 >> 2 = 33, clip 8159): sign and
magnitude, clip, bias, find the segment, pack and complement. -/
def st_14linear2ulaw (pcm : Int) : Nat :=
  let (mag, mask) := if pcm < 0 then (-pcm, 0x7F) else (pcm, 0xFF)
  let mag := if 8159 < mag then (8159 : Int) else mag
  let mag := mag + 33
  let seg := segSearch mag
  if 8 ≤ seg then 0x7F ^^^ mask
  else ((seg <<< 4) ||| ((mag.toNat >>> (seg + 1)) &&& 0xF)) ^^^ mask

/-- Model of audioop.lin2ulaw at width 2: the C code scales the 16-bit
sample to 32 bits and arithmetic-shifts right by 18, i.e. floor-divides
the sample by 4, before the 14-bit encoder. -/
def lin2ulaw (xs : List Int) : List Nat :=
  xs.map (fun x => st_14linear2ulaw (Int.fdiv x 4))

/-- The resampler state ratecv threads between calls: the phase counter d
and the previous/current input samples, for one channel. The C function
only returns while d is negative, so every persisted state has d < 0. -/
structure RatecvState where
  d : Int
  prev : Int
  cur : Int
deriving DecidableEq, Repr

/-- The emit phase of ratecv's main loop: while d is nonnegative, output
the linear interpolation (prev * d + cur * (outr - d)) / outr and
decrease d by inr. Fuel (d + 1) is exact for any inr of at least one,
which holds for every reduced rate pair used here. -/
def ratecvEmitAux (inr outr prev cur : Int) : Nat → Int → List Int × Int
  | 0, d => ([], d)
  | fuel + 1, d =>
    if 0 ≤ d then
      let out := Int.tdiv (prev * d + cur * (outr - d)) outr
      let (rest, dEnd) := ratecvEmitAux inr outr prev cur fuel (d - inr)
      (out :: rest, dEnd)
    else ([], d)

/-- Emit phase entry point with exact fuel. -/
def ratecvEmit (inr outr prev cur d : Int) : List Int × Int :=
  ratecvEmitAux inr outr prev cur (d + 1).toNat d

/-- The consume/emit loop of ratecv over the input frame, entered with
d < 0 (the invariant of every reachable state): each consumed sample
shifts prev/cur, raises d by outr, and when d becomes nonnegative the
emit phase runs before the next sample is consumed. -/
def ratecvRun (inr outr : Int) : List Int → Int → Int → Int → List Int × RatecvState
  | [], d, prev, cur => ([], ⟨d, prev, cur⟩)
  | x :: xs, d, _prev, cur =>
    let d2 := d + outr
    if d2 < 0 then
      ratecvRun inr outr xs d2 cur x
    else
      let (out, d3) := ratecvEmit inr outr cur x d2
      let (rest, st) := ratecvRun inr outr xs d3 cur x
      (out ++ rest, st)

/-- Model of audioop.ratecv at width 2, one channel, default weights:
reduce the rates by their gcd; a None state starts at d = -outrate with
zero prev/cur samples. Returns the converted fragment and the new state. -/
def ratecv (fragment : List Int) (inrate outrate : Int)
    (state : Option RatecvState) : List Int × RatecvState :=
  let g : Int := (Int.gcd inrate outrate : Int)
  let inr := Int.tdiv inrate g
  let outr := Int.tdiv outrate g
  match state with
  | none => ratecvRun inr outr fragment (-outr) 0 0
  | some s => ratecvRun inr outr fragment s.d s.prev s.cur

/-! ### The bridge relay loops (app.py handle_media_stream)

Both loops are folds over streams of already-JSON-decoded events.
receive_from_twilio holds the shared stream_sid binding and forwards
transcoded telephony audio to the AI socket; send_to_twilio dispatches
AI-engine events on their type string, forwarding transcoded audio to
the telephony socket and growing the shared transcript list. -/

/-- Inbound telephony events: start binds the stream id; media carries a
mu-law payload, with none modelling a payload whose base64 decode raises;
any other event kind falls through the if/elif chain. -/
inductive TwilioEvent where
  | start (streamSid : String)
  | media (payload : Option (List Nat))
  | other
deriving Repr

/-- Messages the receive loop sends to the AI socket: the
input_audio_buffer.append carrying transcoded PCM samples. -/
inductive GrokMsg where
  | inputAudioAppend (pcm24 : List Int)
deriving DecidableEq, Repr

/-- The media-branch transcode of receive_from_twilio: mu-law bytes to
linear PCM, then resample 8000 to 24000 with a None resampler state (the
source passes None on every frame and discards the returned state). -/
def twilio_to_grok_frame (payload : List Nat) : List Int :=
  (ratecv (ulaw2lin payload) 8000 24000 none).1

/-- Model of receive_from_twilio: a start event rebinds stream_sid; a
media event is transcoded and forwarded unconditionally; a media payload
that fails to decode raises, and the exception handler sits outside the
while loop, so the loop returns at once and every later event goes
unprocessed. Returns the final stream_sid and the sent messages. -/
def receive_from_twilio (sid : Option String) :
    List TwilioEvent → Option String × List GrokMsg
  | [] => (sid, [])
  | e :: es =>
    match e with
    | .start s => receive_from_twilio (some s) es
    | .media none => (sid, [])
    | .media (some p) =>
      let (sidEnd, msgs) := receive_from_twilio sid es
      (sidEnd, .inputAudioAppend (twilio_to_grok_frame p) :: msgs)
    | .other => receive_from_twilio sid es

/-- One content element of an AI-engine item: a dict with a type tag and
text / transcript fields. -/
structure GrokContent where
  ctype : String
  text : String
  transcript : String
deriving DecidableEq, Repr

/-- An AI-engine item (nested in response.done output lists and in
conversation.item.created events). -/
structure GrokItem where
  itype : String
  role : String
  content : List GrokContent
deriving DecidableEq, Repr

/-- The empty item, standing for an absent item field. -/
def nullItem : GrokItem := ⟨"", "", []⟩

/-- An AI-engine event as the dispatch chain reads it: the type string
and the fields the recognised branches access. The delta field carries
the base64-decoded PCM samples of response.output_audio.delta. -/
structure GrokEvent where
  type : String
  delta : List Int
  transcript : String
  text : String
  output : List GrokItem
  item : GrokItem
deriving Repr

/-- Outbound telephony messages: a media frame tagged with the bound
stream id, carrying mu-law bytes. -/
inductive TwilioOut where
  | media (streamSid : String) (payload : List Nat)
deriving DecidableEq, Repr

/-- The delta-branch transcode of send_to_twilio: resample 24000 to 8000
with a None resampler state (again fresh on every frame), then mu-law
encode. -/
def grok_to_twilio_frame (pcm24 : List Int) : List Nat :=
  lin2ulaw ((ratecv pcm24 24000 8000 none).1)

/-- The dedup test of the response.done branch: any(t.get('text') == text
and t.get('role') == 'assistant' for t in transcript). -/
def hasAssistantText (ts : List Entry) (t : String) : Bool :=
  ts.any (fun e => e.text = t && e.role = "assistant")

/-- One content element of a response.done message item: text and audio
parts append an assistant turn unless empty or already recorded. -/
def processDoneContent (ts : List Entry) (c : GrokContent) : List Entry :=
  if c.ctype = "text" then
    if c.text ≠ "" ∧ ¬(hasAssistantText ts c.text = true) then
      ts ++ [⟨"assistant", c.text⟩] else ts
  else if c.ctype = "audio" then
    if c.transcript ≠ "" ∧ ¬(hasAssistantText ts c.transcript = true) then
      ts ++ [⟨"assistant", c.transcript⟩] else ts
  else ts

/-- One output item of response.done: only message items contribute. -/
def processDoneItem (ts : List Entry) (it : GrokItem) : List Entry :=
  if it.itype = "message" then it.content.foldl processDoneContent ts else ts

/-- One content element of a conversation.item.created assistant item:
text and audio parts append an assistant turn unless empty — with no
dedup test in this branch. -/
def processCreatedContent (ts : List Entry) (c : GrokContent) : List Entry :=
  if c.ctype = "text" then
    (if c.text ≠ "" then ts ++ [⟨"assistant", c.text⟩] else ts)
  else if c.ctype = "audio" then
    (if c.transcript ≠ "" then ts ++ [⟨"assistant", c.transcript⟩] else ts)
  else ts

/-- Model of one iteration of send_to_twilio's event dispatch, given the
current stream_sid binding and transcript. Returns the new transcript and
the messages sent to the telephony socket. The final branch covers every
unrecognised type string as well as input_audio_buffer.speech_started,
whose branch in the source is a pass. -/
def send_step (sid : Option String) (ts : List Entry) (e : GrokEvent) :
    List Entry × List TwilioOut :=
  if e.type = "response.output_audio.delta" then
    let payload := grok_to_twilio_frame e.delta
    match sid with
    | some s => (ts, [.media s payload])
    | none => (ts, [])
  else if e.type = "conversation.item.input_audio_transcription.completed" then
    (if e.transcript ≠ "" then ts ++ [⟨"user", e.transcript⟩] else ts, [])
  else if e.type = "response.audio_transcript.done" then
    (if e.transcript ≠ "" then ts ++ [⟨"assistant", e.transcript⟩] else ts, [])
  else if e.type = "response.audio_transcript.delta" then (ts, [])
  else if e.type = "response.text.done" then
    (if e.text ≠ "" then ts ++ [⟨"assistant", e.text⟩] else ts, [])
  else if e.type = "response.text.delta" then (ts, [])
  else if e.type = "response.done" then
    (e.output.foldl processDoneItem ts, [])
  else if e.type = "conversation.item.created" then
    (if e.item.role = "assistant" then e.item.content.foldl processCreatedContent ts
     else ts, [])
  else (ts, [])

/-- Model of the send_to_twilio loop over a stream of AI-engine events
(with the stream_sid binding held fixed, as the claims below consider). -/
def send_to_twilio (sid : Option String) (ts : List Entry) :
    List GrokEvent → List Entry × List TwilioOut
  | [] => (ts, [])
  | e :: es =>
    let (ts2, out) := send_step sid ts e
    let (tsEnd, rest) := send_to_twilio sid ts2 es
    (tsEnd, out ++ rest)

/-- The event-type strings the dispatch chain recognises. -/
def recognizedTypes : List String :=
  ["response.output_audio.delta",
   "conversation.item.input_audio_transcription.completed",
   "response.audio_transcript.done",
   "response.audio_transcript.delta",
   "response.text.done",
   "response.text.delta",
   "response.done",
   "conversation.item.created",
   "input_audio_buffer.speech_started"]

/-- Model of Python enumerate(transcript, 1), as handle_media_stream
numbers the final transcript. -/
def enumerateFrom : Nat → List Entry → List (Nat × Entry)
  | _, [] => []
  | n, x :: xs => (n, x) :: enumerateFrom (n + 1) xs

/-- The sequence numbers the final printout assigns. -/
def seqNums (ts : List Entry) : List Nat :=
  (enumerateFrom 1 ts).map Prod.fst

/-! ### General lemmas about the embedding -/

/-- A fold whose step only appends, only appends. -/
theorem foldl_extends {α : Type} (f : List Entry → α → List Entry)
    (hf : ∀ ts a, ∃ new, f ts a = ts ++ new) :
    ∀ (l : List α) (ts : List Entry), ∃ new, l.foldl f ts = ts ++ new := by
  intro l
  induction l with
  | nil => exact fun ts => ⟨[], by simp⟩
  | cons a l ih =>
    intro ts
    obtain ⟨n1, h1⟩ := hf ts a
    obtain ⟨n2, h2⟩ := ih (f ts a)
    exact ⟨n1 ++ n2, by rw [List.foldl_cons, h2, h1, List.append_assoc]⟩

/-- The response.done content step only appends. -/
theorem processDoneContent_extends (ts : List Entry) (c : GrokContent) :
    ∃ new, processDoneContent ts c = ts ++ new := by
  unfold processDoneContent
  repeat' split
  all_goals first
    | exact ⟨[⟨"assistant", c.text⟩], rfl⟩
    | exact ⟨[⟨"assistant", c.transcript⟩], rfl⟩
    | exact ⟨[], (List.append_nil ts).symm⟩

/-- The response.done item step only appends. -/
theorem processDoneItem_extends (ts : List Entry) (it : GrokItem) :
    ∃ new, processDoneItem ts it = ts ++ new := by
  unfold processDoneItem
  split
  · exact foldl_extends _ processDoneContent_extends it.content ts
  · exact ⟨[], (List.append_nil ts).symm⟩

/-- The conversation.item.created content step only appends. -/
theorem processCreatedContent_extends (ts : List Entry) (c : GrokContent) :
    ∃ new, processCreatedContent ts c = ts ++ new := by
  unfold processCreatedContent
  repeat' split
  all_goals first
    | exact ⟨[⟨"assistant", c.text⟩], rfl⟩
    | exact ⟨[⟨"assistant", c.transcript⟩], rfl⟩
    | exact ⟨[], (List.append_nil ts).symm⟩

/-- One dispatch step only appends to the transcript. -/
theorem send_step_extends (sid : Option String) (ts : List Entry) (e : GrokEvent) :
    ∃ new, (send_step sid ts e).1 = ts ++ new := by
  unfold send_step
  repeat' split
  all_goals first
    | exact foldl_extends _ processDoneItem_extends e.output ts
    | exact foldl_extends _ processCreatedContent_extends e.item.content ts
    | exact ⟨[⟨"user", e.transcript⟩], rfl⟩
    | exact ⟨[⟨"assistant", e.transcript⟩], rfl⟩
    | exact ⟨[⟨"assistant", e.text⟩], rfl⟩
    | exact ⟨[], (List.append_nil ts).symm⟩

/-- The send loop only appends to the transcript. -/
theorem send_to_twilio_extends (sid : Option String) :
    ∀ (es : List GrokEvent) (ts : List Entry),
      ∃ new, (send_to_twilio sid ts es).1 = ts ++ new := by
  intro es
  induction es with
  | nil => exact fun ts => ⟨[], by simp [send_to_twilio]⟩
  | cons e es ih =>
    intro ts
    obtain ⟨n1, h1⟩ := send_step_extends sid ts e
    obtain ⟨n2, h2⟩ := ih (send_step sid ts e).1
    refine ⟨n1 ++ n2, ?_⟩
    simp only [send_to_twilio]
    rw [h2, h1, List.append_assoc]

/-- The enumerate numbering is the arithmetic range from its start. -/
theorem enumerateFrom_map_fst :
    ∀ (l : List Entry) (n : Nat),
      (enumerateFrom n l).map Prod.fst = List.range' n l.length := by
  intro l
  induction l with
  | nil => intro n; rfl
  | cons x xs ih => intro n; simp [enumerateFrom, ih, List.range'_succ]

/-- The sequence numbers of any transcript are strictly increasing. -/
theorem seqNums_pairwise (ts : List Entry) :
    List.Pairwise (· < ·) (seqNums ts) := by
  rw [seqNums, enumerateFrom_map_fst]
  exact List.pairwise_lt_range' 1 ts.length

/-- Threading the resampler state makes conversion frame-split invariant:
running the loop on a concatenation equals running it on the parts with
the state carried across. -/
theorem ratecvRun_append (inr outr : Int) :
    ∀ (xs ys : List Int) (d p c : Int),
      ratecvRun inr outr (xs ++ ys) d p c =
        ((ratecvRun inr outr xs d p c).1 ++
          (ratecvRun inr outr ys (ratecvRun inr outr xs d p c).2.d
            (ratecvRun inr outr xs d p c).2.prev
            (ratecvRun inr outr xs d p c).2.cur).1,
         (ratecvRun inr outr ys (ratecvRun inr outr xs d p c).2.d
            (ratecvRun inr outr xs d p c).2.prev
            (ratecvRun inr outr xs d p c).2.cur).2) := by
  intro xs
  induction xs with
  | nil => intro ys d p c; simp [ratecvRun]
  | cons x xs ih =>
    intro ys d p c
    simp only [List.cons_append, ratecvRun]
    split
    · exact ih ys (d + outr) c x
    · simp only [List.append_eq, ih ys]
      rw [List.append_assoc]

/-! ### The claims -/

/-- C1. The claim says each direction's resampler state persists across
frames and is never reset mid-call, so a signal split into two frames
transcodes as if delivered whole. The code passes None as the ratecv
state on every frame and discards the returned state, so the state IS
reset on every frame: the first two conjuncts evaluate the inbound
pipeline on the mu-law frames [0x80] and [0xFF] split versus whole
(outputs of lengths 2 and 4 that agree under no warm-up offset), the
next two do the same for the outbound pipeline on PCM frames [1000] and
[2000, 3000, 4000], and the last conjunct proves that threading the
returned state — what the spec prescribes — makes the split exactly
equal to the whole, confirming the claim describes the intended
behaviour and the per-frame None state is the slip. -/
theorem C1_resampler_reset_divergence :
    (twilio_to_grok_frame [0x80] ++ twilio_to_grok_frame [0xFF] = [32124, 0]) ∧
    (twilio_to_grok_frame [0x80, 0xFF] = [32124, 21416, 10708, 0]) ∧
    (grok_to_twilio_frame [1000] ++ grok_to_twilio_frame [2000, 3000, 4000]
      = [206, 191]) ∧
    (grok_to_twilio_frame [1000, 2000, 3000, 4000] = [206, 175]) ∧
    (∀ xs ys : List Int,
      (ratecv (xs ++ ys) 8000 24000 none).1 =
        (ratecv xs 8000 24000 none).1 ++
          (ratecv ys 8000 24000 (some (ratecv xs 8000 24000 none).2)).1) := by
  refine ⟨by decide, by decide, by decide, by decide, ?_⟩
  intro xs ys
  simp only [ratecv]
  rw [ratecvRun_append]

/-- C2 counterexample. The claim says no audio frame is forwarded in
either direction before the start event binds the stream identifier; but
the receive loop forwards a media frame to the AI engine even though no
start event has arrived and the stream identifier is still unbound. -/
theorem C2_counterexample :
    (receive_from_twilio none [TwilioEvent.media (some [0x80])]).2 =
      [GrokMsg.inputAudioAppend [32124]] ∧
    (receive_from_twilio none [TwilioEvent.media (some [0x80])]).1 = none := by
  constructor <;> decide

/-- C2 amended. Only the AI-to-telephony direction is gated on the bound
stream identifier: while stream_sid is unbound the send loop emits
nothing to the telephony transport for any event, but the receive loop
transcodes and forwards every decodable telephony media frame to the AI
engine regardless of whether start has arrived. -/
theorem C2_amended_gating :
    (∀ (sid : Option String) (p : List Nat) (es : List TwilioEvent),
      (receive_from_twilio sid (TwilioEvent.media (some p) :: es)).2 =
        GrokMsg.inputAudioAppend (twilio_to_grok_frame p) ::
          (receive_from_twilio sid es).2) ∧
    (∀ (ts : List Entry) (e : GrokEvent), (send_step none ts e).2 = []) := by
  constructor
  · intro sid p es
    simp [receive_from_twilio]
  · intro ts e
    unfold send_step
    repeat' split
    all_goals first | rfl | simp_all

/-- C3 counterexample. The claim says the fallback extractor returns the
last match ACROSS all patterns. On a transcript whose dollar-prefixed
price 200 precedes a textually later price is 175, the last match across
all patterns is 175, yet the code returns 200: the loop returns the last
match of the FIRST pattern that matches at all, and the dollar pattern
is tried first. -/
theorem C3_counterexample :
    fallback_extract_price
      [⟨"assistant", "$200 is too much"⟩, ⟨"user", "okay, price is 175"⟩]
      = some 200 ∧
    spec_last_match_across_patterns
      [⟨"assistant", "$200 is too much"⟩, ⟨"user", "okay, price is 175"⟩]
      = some 175 := by
  constructor <;> decide

/-- C3 amended. The fallback extractor scans the concatenated transcript
with the ordered price patterns and returns the last match of the first
pattern, in that order, that matches anywhere in the text (not the last
match across all patterns); if no pattern matches it returns
no-agreement. The claim's own example still holds: both 200 and 175 are
dollar-prefixed, so the first pattern matches both and its last match,
175, wins. -/
theorem C3_amended :
    (∀ ts : List Entry,
      fallback_extract_price ts =
        (firstPatternLast pricePatterns (lowerChars (joinTexts ts))).map
          parseFloatQ) ∧
    fallback_extract_price
      [⟨"assistant", "I can pay $200"⟩, ⟨"user", "$175, final offer"⟩]
      = some 175 ∧
    fallback_extract_price [⟨"user", "no numbers mentioned here"⟩] = none := by
  refine ⟨?_, by decide, by decide⟩
  intro ts
  simp only [fallback_extract_price, pricePatterns, firstPatternLast]
  cases h1 : (findAll matchDollar (lowerChars (joinTexts ts))).getLast? <;>
  cases h2 : (findAll matchDollarsWord (lowerChars (joinTexts ts))).getLast? <;>
  cases h3 : (findAll matchAgreedOn (lowerChars (joinTexts ts))).getLast? <;>
  cases h4 : (findAll matchForThe (lowerChars (joinTexts ts))).getLast? <;>
  cases h5 : (findAll matchPriceIs (lowerChars (joinTexts ts))).getLast? <;>
  simp [h1, h2, h3, h4, h5]

/-- C4 counterexample. The claim says an AI utterance arriving under two
differently-shaped completion events with identical role and text is
appended exactly once. Delivering the utterance hi first as
response.audio_transcript.done and then inside a
conversation.item.created assistant item appends it twice: only the
response.done branch carries the dedup test. -/
theorem C4_counterexample :
    (send_to_twilio none []
      [⟨"response.audio_transcript.done", [], "hi", "", [], nullItem⟩,
       ⟨"conversation.item.created", [], "", "", [],
         ⟨"message", "assistant", [⟨"audio", "", "hi"⟩]⟩⟩]).1
    = [⟨"assistant", "hi"⟩, ⟨"assistant", "hi"⟩] := by
  decide

/-- C4 amended. Deduplication applies only when the repeated utterance
arrives via the response.done shape: a response.done text item whose text
is already recorded as an assistant turn appends nothing (first
conjunct), so the pair audio_transcript.done followed by response.done
yields exactly one turn (second conjunct); identical role and text
arriving again under the other completion shapes is appended a second
time (the counterexample). -/
theorem C4_amended :
    (∀ (sid : Option String) (ts : List Entry) (t : String),
      hasAssistantText ts t = true →
      send_step sid ts
        ⟨"response.done", [], "", "",
          [⟨"message", "assistant", [⟨"text", t, ""⟩]⟩], nullItem⟩ = (ts, [])) ∧
    (send_to_twilio none []
      [⟨"response.audio_transcript.done", [], "hi", "", [], nullItem⟩,
       ⟨"response.done", [], "", "",
         [⟨"message", "assistant", [⟨"audio", "", "hi"⟩]⟩], nullItem⟩]).1
    = [⟨"assistant", "hi"⟩] := by
  constructor
  · intro sid ts t h
    simp [send_step, processDoneItem, processDoneContent, h]
  · decide

/-- C4 witness. The dedup conjunct applied at a concrete transcript and
text. -/
theorem C4_amended_witness :
    send_step none [⟨"assistant", "x"⟩]
      ⟨"response.done", [], "", "",
        [⟨"message", "assistant", [⟨"text", "x", ""⟩]⟩], nullItem⟩
      = ([⟨"assistant", "x"⟩], []) :=
  C4_amended.1 none [⟨"assistant", "x"⟩] "x" (by decide)

/-- C5 counterexample. The claim says a frame whose payload fails to
decode is dropped and the loop continues with later frames. In the code
the exception handler wraps the whole while loop, so an undecodable
frame ends the loop: a decodable frame following it is never forwarded,
though the same frame alone would be. -/
theorem C5_counterexample :
    (receive_from_twilio none
      [TwilioEvent.media none, TwilioEvent.media (some [0x80])]).2 = [] ∧
    (receive_from_twilio none [TwilioEvent.media (some [0x80])]).2 ≠ [] := by
  constructor <;> decide

/-- C5 amended. A frame-level decode failure ends the inbound relay loop:
the exception is swallowed (the loop returns normally rather than
propagating), the failing frame and every later telephony event of the
session go unprocessed, and nothing more is forwarded to the AI engine
from this direction. -/
theorem C5_amended :
    ∀ (sid : Option String) (es : List TwilioEvent),
      receive_from_twilio sid (TwilioEvent.media none :: es) = (sid, []) := by
  intro sid es
  rfl

/-- C6. With an empty transcript the outcome extractor returns None
immediately, for every API-key configuration and every possible primary
inference outcome — so neither strategy can influence the result. -/
theorem C6_empty_transcript :
    ∀ (hasApiKey : Bool) (llm : LLMOutcome),
      extract_negotiated_price hasApiKey llm [] = none := by
  intro hasApiKey llm
  rfl

/-- C7. The primary answer parser returns no-agreement exactly on
none-like answers (empty after normalisation, or containing a negation
token — the separate equality test against the none token in the source
is subsumed, since none contains no), and otherwise parses the first
numeric token of the normalised answer; in particular the answer none
yields no-agreement. -/
theorem C7_primary_parse :
    (∀ answer : String,
      parse_price_response answer =
        if noneLikeAnswer (normAnswer answer) then none
        else firstNumericTokenQ (normAnswer answer)) ∧
    parse_price_response "none" = none := by
  refine ⟨?_, by decide⟩
  intro answer
  by_cases h : normAnswer answer = "none".toList
  · rw [parse_price_response, h]
    decide
  · rw [parse_price_response, noneLikeAnswer, firstNumericTokenQ]
    simp only [decide_eq_false h, Bool.false_or, Bool.or_false]
    cases hf : findAll matchNumber (normAnswer answer) <;> simp [hf]

/-- C8. For any interleaving of caller and AI events, the send loop only
appends to the transcript — the turns recorded so far are always a
prefix, so turns appear in event-arrival order — and the sequence
numbers the final enumeration assigns are strictly increasing. -/
theorem C8_transcript_ordering :
    ∀ (sid : Option String) (ts : List Entry) (es : List GrokEvent),
      (∃ new, (send_to_twilio sid ts es).1 = ts ++ new) ∧
      List.Pairwise (· < ·) (seqNums (send_to_twilio sid ts es).1) := by
  intro sid ts es
  exact ⟨send_to_twilio_extends sid es ts,
    seqNums_pairwise (send_to_twilio sid ts es).1⟩

/-- C9. An AI-engine event whose type string is not among the recognised
kinds falls through the whole dispatch chain: the transcript is
unchanged, nothing is sent to the telephony transport, and no error is
raised (the model is a total function, as the chain has no raising
branch). -/
theorem C9_unrecognized_ignored :
    ∀ (sid : Option String) (ts : List Entry) (e : GrokEvent),
      e.type ∉ recognizedTypes → send_step sid ts e = (ts, []) := by
  intro sid ts e h
  have h1 : ¬e.type = "response.output_audio.delta" :=
    fun hh => h (by rw [hh]; decide)
  have h2 : ¬e.type = "conversation.item.input_audio_transcription.completed" :=
    fun hh => h (by rw [hh]; decide)
  have h3 : ¬e.type = "response.audio_transcript.done" :=
    fun hh => h (by rw [hh]; decide)
  have h4 : ¬e.type = "response.audio_transcript.delta" :=
    fun hh => h (by rw [hh]; decide)
  have h5 : ¬e.type = "response.text.done" :=
    fun hh => h (by rw [hh]; decide)
  have h6 : ¬e.type = "response.text.delta" :=
    fun hh => h (by rw [hh]; decide)
  have h7 : ¬e.type = "response.done" :=
    fun hh => h (by rw [hh]; decide)
  have h8 : ¬e.type = "conversation.item.created" :=
    fun hh => h (by rw [hh]; decide)
  simp [send_step, h1, h2, h3, h4, h5, h6, h7, h8]

/-- C9 witness. A session.updated event (a real AI-engine event kind the
chain does not handle) is ignored. -/
theorem C9_unrecognized_ignored_witness :
    send_step none [] ⟨"session.updated", [], "", "", [], nullItem⟩ = ([], []) :=
  C9_unrecognized_ignored none [] ⟨"session.updated", [], "", "", [], nullItem⟩
    (by decide)

/-- C10. An AI audio delta arriving while stream_sid is still unbound is
transcoded and then dropped: nothing is sent to the telephony transport,
nothing is buffered anywhere in the state, and the transcript is
unchanged. -/
theorem C10_unbound_delta_discarded :
    ∀ (ts : List Entry) (pcm : List Int),
      send_step none ts ⟨"response.output_audio.delta", pcm, "", "", [], nullItem⟩
        = (ts, []) := by
  intro ts pcm
  simp [send_step]

end XaiHack
